import Mathlib

/-!
Verification development for the stdpipe pipeline orchestration module
(`stdpipe/pipeline.py`).  The three routines `refine_astrometry`,
`filter_transient_candidates` and `calibrate_photometry` are shallowly
embedded as pure Lean functions.  External collaborators (the spatial
matcher, the photometric match-and-fit primitive, the WCS fitters and the
catalogue query adapters) are supplied as function-valued dependency
records, mirroring the module boundary of the source.  Python exceptions
are modelled with `Except`, where the error value also carries the state
of the caller's object table at the point the exception is raised.
Tables hold exact rationals in place of floating point values.
-/

/-! ### Generic list helpers (numpy-style primitives) -/

/-- Count `np.sum` of a boolean mask: the number of `true` entries. -/
def countTrue (l : List Bool) : ℕ := l.count true

/-- Test `np.any` on a boolean mask. -/
def anyTrue (l : List Bool) : Bool := l.any (fun b => b)

/-- Elementwise `&` of two boolean masks (`cand_idx &= ...`). -/
def andMask (a b : List Bool) : List Bool := List.zipWith (fun u v => u && v) a b

/-- Elementwise `~` of a boolean mask. -/
def notMask (a : List Bool) : List Bool := a.map (fun b => !b)

/-- Membership `np.in1d xs ys`: for each element of `xs`, whether it occurs in `ys`. -/
def in1d (xs ys : List ℚ) : List Bool := xs.map (fun v => decide (v ∈ ys))

/-- Helper for `setFalse`, walking the list with an explicit position. -/
def setFalseAux (idxs : List ℕ) : ℕ → List Bool → List Bool
  | _, [] => []
  | i, b :: bs => (if i ∈ idxs then false else b) :: setFalseAux idxs (i + 1) bs

/-- Assignment `mask[idxs] = False` on a boolean mask (numpy fancy assignment). -/
def setFalse (l : List Bool) (idxs : List ℕ) : List Bool := setFalseAux idxs 0 l

/-- Boolean-mask row selection `l[mask]`. -/
def maskSelect {α : Type _} (l : List α) (m : List Bool) : List α :=
  (l.zip m).filterMap (fun p => if p.2 then some p.1 else none)

/-- Integer-array row selection `l[idxs]`. -/
def idxSelect {α : Type _} (l : List α) (idxs : List ℕ) (d : α) : List α :=
  idxs.map (fun i => l.getD i d)

/-- Range `np.arange n` as rationals. -/
def arange (n : ℕ) : List ℚ := List.map (fun i : ℕ => (i : ℚ)) (List.range n)

/-- Insertion into a sorted list (ascending). -/
def insertSorted (v : ℚ) : List ℚ → List ℚ
  | [] => [v]
  | w :: ws => if v ≤ w then v :: w :: ws else w :: insertSorted v ws

/-- Insertion sort, ascending. -/
def sortQ (l : List ℚ) : List ℚ := l.foldr insertSorted []

/-- Median `np.median`: middle element of the sorted data for odd length, mean of
the two middle elements for even length.  numpy yields NaN on an empty
array; that case is represented here by `0` and is outside the range of
the theorems that depend on the median. -/
def npMedian (l : List ℚ) : ℚ :=
  let s := sortQ l
  if l.length = 0 then 0
  else if l.length % 2 = 1 then s.getD (l.length / 2) 0
  else (s.getD (l.length / 2 - 1) 0 + s.getD (l.length / 2) 0) / 2

/-- Iterate a partial step function `n` times, failing if any step fails. -/
def iterateO {α : Type _} (f : α → Option α) : ℕ → α → Option α
  | 0, a => some a
  | n + 1, a =>
    match f a with
    | some b => iterateO f n b
    | none => none

/-! ### The object table

One row per detected source, stored column-wise as in an astropy `Table`.
The columns are the ones the pipeline module reads; `mag_calib`, `time`
and a caller-supplied identifier column (`extra`) are optional. -/

structure ObjTable where
  ra : List ℚ
  dec : List ℚ
  x : List ℚ
  y : List ℚ
  mag : List ℚ
  magerr : List ℚ
  flags : List ℕ
  fwhm : List ℚ
  mag_calib : Option (List ℚ)
  time : Option (List ℚ)
  extra : Option (String × List ℚ)
deriving DecidableEq, Repr

/-- Row count `len(obj)`. -/
def tlen (t : ObjTable) : ℕ := t.ra.length

/-- Column presence `name in obj.keys()`. -/
def hasCol (t : ObjTable) (c : String) : Bool :=
  c = "ra" || c = "dec" || c = "x" || c = "y" || c = "mag" || c = "magerr" ||
  c = "flags" || c = "fwhm" || (t.mag_calib.isSome && c = "mag_calib") ||
  (t.time.isSome && c = "time") ||
  (match t.extra with
   | some p => c = p.1
   | none => false)

/-- Read `obj[c]` as a column of identifier values (used with `np.in1d`).
The synthetic/caller identifier column takes precedence; the named base
columns are returned otherwise. -/
def getIdVals (t : ObjTable) (c : String) : List ℚ :=
  match t.extra with
  | some p => if c = p.1 then p.2 else getIdValsBase t c
  | none => getIdValsBase t c
where
  getIdValsBase (t : ObjTable) (c : String) : List ℚ :=
    if c = "ra" then t.ra
    else if c = "dec" then t.dec
    else if c = "x" then t.x
    else if c = "y" then t.y
    else if c = "mag" then t.mag
    else if c = "magerr" then t.magerr
    else if c = "fwhm" then t.fwhm
    else if c = "flags" then List.map (fun v : ℕ => (v : ℚ)) t.flags
    else if c = "mag_calib" then t.mag_calib.getD []
    else if c = "time" then t.time.getD []
    else []

/-- Row subset `obj[mask]` (boolean mask). -/
def ObjTable.selectMask (t : ObjTable) (m : List Bool) : ObjTable where
  ra := maskSelect t.ra m
  dec := maskSelect t.dec m
  x := maskSelect t.x m
  y := maskSelect t.y m
  mag := maskSelect t.mag m
  magerr := maskSelect t.magerr m
  flags := maskSelect t.flags m
  fwhm := maskSelect t.fwhm m
  mag_calib := t.mag_calib.map (fun l => maskSelect l m)
  time := t.time.map (fun l => maskSelect l m)
  extra := t.extra.map (fun p => (p.1, maskSelect p.2 m))

/-- Row subset `obj[idxs]` (index array). -/
def ObjTable.selectIdx (t : ObjTable) (idxs : List ℕ) : ObjTable where
  ra := idxSelect t.ra idxs 0
  dec := idxSelect t.dec idxs 0
  x := idxSelect t.x idxs 0
  y := idxSelect t.y idxs 0
  mag := idxSelect t.mag idxs 0
  magerr := idxSelect t.magerr idxs 0
  flags := idxSelect t.flags idxs 0
  fwhm := idxSelect t.fwhm idxs 0
  mag_calib := t.mag_calib.map (fun l => idxSelect l idxs 0)
  time := t.time.map (fun l => idxSelect l idxs 0)
  extra := t.extra.map (fun p => (p.1, idxSelect p.2 idxs 0))

/-- Column-length consistency of a table (boolean form, decidable). -/
def tableWFb (t : ObjTable) : Bool :=
  t.dec.length = tlen t && t.x.length = tlen t && t.y.length = tlen t &&
  t.mag.length = tlen t && t.magerr.length = tlen t &&
  t.flags.length = tlen t && t.fwhm.length = tlen t &&
  (match t.mag_calib with
   | some l => l.length = tlen t
   | none => true) &&
  (match t.time with
   | some l => l.length = tlen t
   | none => true) &&
  (match t.extra with
   | some p => p.2.length = tlen t
   | none => true)

/-- Column-length consistency of a table. -/
def TableWF (t : ObjTable) : Prop := tableWFb t = true

instance (t : ObjTable) : Decidable (TableWF t) :=
  instDecidableEqBool (tableWFb t) true

/-! ### The reference catalogue

A catalogue is a table with catalogue-specific column names, accessed by
name; a missing column raises a `KeyError`, and indexing with `None`
(an unset column-name option) raises a `TypeError`. -/

structure CatTable where
  cols : List (String × List ℚ)
deriving DecidableEq, Repr

/-- Column access `cat[name]`. -/
def CatTable.get (c : CatTable) (name : String) : Except String (List ℚ) :=
  match c.cols.find? (fun p => p.1 == name) with
  | some p => Except.ok p.2
  | none => Except.error ("KeyError: " ++ name)

/-- Column access `cat[name?]` where the column name is an optional parameter;
`cat[None]` raises. -/
def CatTable.getOpt (c : CatTable) (name? : Option String) : Except String (List ℚ) :=
  match name? with
  | some n => c.get n
  | none => Except.error ("TypeError: None is not a valid column name")

/-- Catalogue row subset `cat[idxs]`. -/
def CatTable.selectIdx (c : CatTable) (idxs : List ℕ) : CatTable where
  cols := c.cols.map (fun p => (p.1, idxSelect p.2 idxs 0))

/-- Catalogue row subset `cat[mask]`. -/
def CatTable.selectMask (c : CatTable) (m : List Bool) : CatTable where
  cols := c.cols.map (fun p => (p.1, maskSelect p.2 m))

/-! ### Astrometric refiner (`refine_astrometry`) -/

/-- The Match Result returned by `photometry.match`: parallel index arrays
into the object and catalogue tables, a good-pair mask and distances. -/
structure MatchResult where
  oidx : List ℕ
  cidx : List ℕ
  idx : List Bool
  dist : List ℚ
deriving DecidableEq, Repr

/-- External collaborators of `refine_astrometry`, over an abstract WCS
solution type `W`:  `wcs.all_pix2world(x, y, 0)`, `photometry.match`,
`astrometry.refine_wcs` (args: obj, cat, order, sr?, match, method) and
`astrometry.refine_wcs_scamp` (args: obj, cat, sr, wcs, order, the six
catalogue column names, update, verbose). -/
structure RefineDeps (W : Type) where
  all_pix2world : W → List ℚ → List ℚ → List ℚ × List ℚ
  phot_match : List ℚ → List ℚ → List ℚ → List ℚ → List ℕ →
    List ℚ → List ℚ → List ℚ → Option (List ℚ) → ℚ → Option MatchResult
  refine_wcs : ObjTable → CatTable → ℕ → Option ℚ → Bool → String → W
  refine_wcs_scamp : ObjTable → CatTable → ℚ → Option W → ℕ →
    String → Option String → String → String → String → String → Bool → Bool → Option W

/-- Result of a `refine_astrometry` call: the returned WCS (or `None`),
the final state of the caller's object table, and instrumentation
counters for the calls made to `photometry.match`,
`astrometry.refine_wcs` and `astrometry.refine_wcs_scamp`. -/
structure RefineOut (W : Type) where
  result : Option W
  obj : ObjTable
  nPhotMatch : ℕ
  nRefineWcs : ℕ
  nScamp : ℕ
deriving DecidableEq, Repr

/-- Reprojection `obj['ra'], obj['dec'] = wcs.all_pix2world(obj['x'], obj['y'], 0)`. -/
def reproject {W : Type} (deps : RefineDeps W) (w : W) (obj : ObjTable) : ObjTable :=
  let p := deps.all_pix2world w obj.x obj.y
  { obj with ra := p.1, dec := p.2 }

/-- The unconditional initial reprojection `if wcs is not None: ...`
performed at the top of `refine_astrometry`. -/
def initObj {W : Type} (deps : RefineDeps W) (wcs : Option W) (obj : ObjTable) : ObjTable :=
  match wcs with
  | some w => reproject deps w obj
  | none => obj

/-- The `TypeError` raised when the log-message expression
`np.sum(m['idx'])` is evaluated with `m = None`. -/
def noneSubscriptMsg : String := "TypeError: NoneType object is not subscriptable"

/-- Per-iteration catalogue column accesses of the photometric branch, in
source order: `cat[cat_col_mag_err]` (when set), then the `cat[...]`
arguments of the `photometry.match` call. -/
def catColumns (cat : CatTable) (cme? : Option String) (cra cdec cmag : String) :
    Except String (Option (List ℚ) × List ℚ × List ℚ × List ℚ) :=
  match (match cme? with
         | some c => Except.map some (cat.get c)
         | none => Except.ok none) with
  | Except.error e => Except.error e
  | Except.ok me =>
    match cat.get cra with
    | Except.error e => Except.error e
    | Except.ok ra =>
      match cat.get cdec with
      | Except.error e => Except.error e
      | Except.ok de =>
        match cat.get cmag with
        | Except.error e => Except.error e
        | Except.ok mg => Except.ok (me, ra, de, mg)

/-- The match-fit loop `for iter in range(n_iter)` of `refine_astrometry`.
State: the current WCS (`None` until a fit happens if no guess was given)
and the object table; `a`/`b` accumulate the `photometry.match` /
`astrometry.refine_wcs` call counts. -/
def refineLoop {W : Type} (deps : RefineDeps W) (cat : CatTable) (sr : ℚ) (order : ℕ)
    (cme? : Option String) (cra cdec cmag : String) (use_photometry : Bool)
    (min_matches : ℕ) (method : String) (update : Bool) :
    ℕ → Option W → ObjTable → ℕ → ℕ → Except (String × ObjTable) (RefineOut W)
  | 0, wcs, obj, a, b => Except.ok ⟨wcs, obj, a, b, 0⟩
  | n + 1, wcs, obj, a, b =>
    if use_photometry then
      match catColumns cat cme? cra cdec cmag with
      | Except.error e => Except.error (e, obj)
      | Except.ok cols =>
        match deps.phot_match obj.ra obj.dec obj.mag obj.magerr obj.flags
            cols.2.1 cols.2.2.1 cols.2.2.2 cols.1 sr with
        | none =>
          -- `if not m or np.sum(m['idx']) < min_matches:` takes the branch,
          -- but the log argument `np.sum(m['idx'])` subscripts `None`
          Except.error (noneSubscriptMsg, obj)
        | some m =>
          if countTrue m.idx < min_matches then
            -- too few good matches: return None
            Except.ok ⟨none, obj, a + 1, b, 0⟩
          else
            let w := deps.refine_wcs ((obj.selectIdx m.oidx).selectMask m.idx)
              ((cat.selectIdx m.cidx).selectMask m.idx) order none false method
            refineLoop deps cat sr order cme? cra cdec cmag use_photometry
              min_matches method update n (some w)
              (if update then reproject deps w obj else obj) (a + 1) (b + 1)
    else
      let w := deps.refine_wcs obj cat order (some sr) true method
      refineLoop deps cat sr order cme? cra cdec cmag use_photometry
        min_matches method update n (some w)
        (if update then reproject deps w obj else obj) a (b + 1)

/-- Embedding of `refine_astrometry(obj, cat, sr, wcs, order, cat_col_mag,
cat_col_mag_err, cat_col_ra, cat_col_dec, cat_col_ra_err, cat_col_dec_err,
n_iter, use_photometry, min_matches, method, update, verbose)`. -/
def refine_astrometry {W : Type} (deps : RefineDeps W) (obj : ObjTable) (cat : CatTable)
    (sr : ℚ) (wcs : Option W) (order : ℕ) (cat_col_mag : String)
    (cat_col_mag_err : Option String) (cat_col_ra cat_col_dec : String)
    (cat_col_ra_err cat_col_dec_err : String) (n_iter : ℕ) (use_photometry : Bool)
    (min_matches : ℕ) (method : String) (update verbose : Bool) :
    Except (String × ObjTable) (RefineOut W) :=
  let obj := initObj deps wcs obj
  if method = "scamp" then
    Except.ok ⟨deps.refine_wcs_scamp obj cat sr wcs order cat_col_mag cat_col_mag_err
      cat_col_ra cat_col_dec cat_col_ra_err cat_col_dec_err update verbose,
      obj, 0, 0, 1⟩
  else
    refineLoop deps cat sr order cat_col_mag_err cat_col_ra cat_col_dec cat_col_mag
      use_photometry min_matches method update n_iter wcs obj 0 0

/-- One successful photometric iteration of the loop (column reads
succeed, the match returns a result with at least `min_matches` good
pairs); `none` marks the other cases. -/
def photIterStep {W : Type} (deps : RefineDeps W) (cat : CatTable) (sr : ℚ) (order : ℕ)
    (cme? : Option String) (cra cdec cmag : String) (min_matches : ℕ)
    (method : String) (update : Bool) :
    Option W × ObjTable → Option (Option W × ObjTable) := fun s =>
  match catColumns cat cme? cra cdec cmag with
  | Except.error _ => none
  | Except.ok cols =>
    match deps.phot_match s.2.ra s.2.dec s.2.mag s.2.magerr s.2.flags
        cols.2.1 cols.2.2.1 cols.2.2.2 cols.1 sr with
    | none => none
    | some m =>
      if countTrue m.idx < min_matches then none
      else
        let w := deps.refine_wcs ((s.2.selectIdx m.oidx).selectMask m.idx)
          ((cat.selectIdx m.cidx).selectMask m.idx) order none false method
        some (some w, if update then reproject deps w s.2 else s.2)

/-- One iteration of the purely positional branch of the loop. -/
def posStep {W : Type} (deps : RefineDeps W) (cat : CatTable) (sr : ℚ) (order : ℕ)
    (method : String) (update : Bool) :
    Option W × ObjTable → Option W × ObjTable := fun s =>
  let w := deps.refine_wcs s.2 cat order (some sr) true method
  (some w, if update then reproject deps w s.2 else s.2)

/-! ### Transient candidate filter (`filter_transient_candidates`) -/

/-- A catalogue query issued by the filter: an external (VizieR) catalogue
cross-match, the moving-object (SkyBot) service, or the extragalactic
database (NED). -/
inductive QueryEvent where
  | viz (catname : String)
  | skybot
  | ned
deriving DecidableEq, Repr

/-- One narrowing stage of the filter: the surviving-candidate mask after
the stage, and the external queries the stage issued. -/
structure Stage where
  mask : List Bool
  queries : List QueryEvent
deriving DecidableEq, Repr

/-- Result of a `filter_transient_candidates` call: the returned value
(either the candidate row subset or the boolean mask), the initial
all-true mask, the per-stage instrumentation records (flagged removal,
local-catalogue match, one per external catalogue, moving-object,
extragalactic), the emitted diagnostic output and the final state of the
caller's table. -/
structure FilterOut where
  result : ObjTable ⊕ List Bool
  initMask : List Bool
  stages : List Stage
  output : List String
  callerTable : ObjTable
deriving DecidableEq, Repr

/-- External collaborators of the filter: the HTM spatial matcher (first
component of `h.match`, indices into the object list), the catalogue
cross-match adapters (returning the identifier column of the match table,
`none` for an absent result), and the display-name lookup
`catalogs.catalogs.get(catname)['name']`. -/
structure FilterDeps where
  htmMatch : List ℚ → List ℚ → List ℚ → List ℚ → ℚ → List ℕ
  xmatchObjects : ObjTable → String → ℚ → Option (List ℚ)
  catalogName : String → Option String
  xmatchSkybot : ObjTable → List ℚ → String → Option (List ℚ)
  xmatchNed : ObjTable → ℚ → String → Option (List ℚ)

/-- The narrowing step shared by the external-catalogue, moving-object and
extragalactic stages:
`if xcat is not None and len(xcat): cand_idx &= ~np.in1d(obj[col_id], xcat[col_id])`. -/
def dropMatched (ci : List Bool) (idVals : List ℚ) (xids : Option (List ℚ)) : List Bool :=
  match xids with
  | some ids => if 0 < ids.length then andMask ci (notMask (in1d idVals ids)) else ci
  | none => ci

/-- The local-reference-catalogue stage:
`if cat is not None and np.any(cand_idx): m = h.match(...); cand_idx[m[0]] = False`. -/
def catStage (deps : FilterDeps) (objW : ObjTable) (cat? : Option CatTable)
    (ccra ccdec : String) (sr : ℚ) (verbose : Bool) (ci : List Bool) :
    Except String (List Bool × List String) :=
  match cat? with
  | some c =>
    if anyTrue ci then
      match c.get ccra with
      | Except.error e => Except.error e
      | Except.ok ra =>
        match c.get ccdec with
        | Except.error e => Except.error e
        | Except.ok de =>
          let midx := deps.htmMatch objW.ra objW.dec ra de sr
          let ci' := setFalse ci midx
          Except.ok (ci', if verbose then
            [toString (countTrue ci') ++ " of them are not matched with reference catalogue"]
            else [])
    else Except.ok (ci, [])
  | none => Except.ok (ci, [])

/-- The `for catname in vizier:` loop.  The loop breaks as soon as no
candidate survives; the skipped catalogues are recorded as stages with an
unchanged mask and no queries.  The display-name lookup in the log
argument is evaluated eagerly (even when not verbose) and raises a
`TypeError` for an unknown catalogue name. -/
def vizLoop (deps : FilterDeps) (objW : ObjTable) (colId : String) (sr : ℚ)
    (verbose : Bool) :
    List String → List Bool → Except String (List Bool × List Stage × List String)
  | [], ci => Except.ok (ci, [], [])
  | catname :: rest, ci =>
    if anyTrue ci = false then
      Except.ok (ci, (catname :: rest).map (fun _ => ⟨ci, []⟩), [])
    else
      -- the query and the mask update happen before the display-name
      -- lookup of the log argument; both are pure here, so the narrowed
      -- mask is written out in place of a local binding
      match deps.catalogName catname with
      | none => Except.error ("TypeError: NoneType object is not subscriptable")
      | some nm =>
        match vizLoop deps objW colId sr verbose rest
            (dropMatched ci (getIdVals objW colId)
              (deps.xmatchObjects (objW.selectMask ci) catname sr)) with
        | Except.error e => Except.error e
        | Except.ok r =>
          Except.ok (r.1,
            Stage.mk (dropMatched ci (getIdVals objW colId)
              (deps.xmatchObjects (objW.selectMask ci) catname sr))
              [QueryEvent.viz catname] :: r.2.1,
            (if verbose then
              [toString (countTrue (dropMatched ci (getIdVals objW colId)
                (deps.xmatchObjects (objW.selectMask ci) catname sr))) ++
                " remains after matching with " ++ nm] else []) ++ r.2.2)

/-- The moving-object (SkyBot) stage, guarded by `skybot and
np.any(cand_idx)`; inside the guard, a missing timestamp falls back to the
table's `time` column, and the query is skipped when neither exists. -/
def skybotStage (deps : FilterDeps) (objW : ObjTable) (colId : String)
    (time? : Option (List ℚ)) (skybot : Bool) (verbose : Bool) (ci : List Bool) :
    List Bool × List QueryEvent × List String :=
  if skybot && anyTrue ci then
    match (match time? with
           | some t => some t
           | none => objW.time) with
    | some t =>
      let xids := deps.xmatchSkybot (objW.selectMask ci) t colId
      let ci' := dropMatched ci (getIdVals objW colId) xids
      (ci', [QueryEvent.skybot],
        if verbose then [toString (countTrue ci') ++ " remains after matching with SkyBot"]
        else [])
    | none => (ci, [], [])
  else (ci, [], [])

/-- The extragalactic (NED) stage, guarded by `ned and np.any(cand_idx)`. -/
def nedStage (deps : FilterDeps) (objW : ObjTable) (colId : String) (sr : ℚ)
    (ned : Bool) (verbose : Bool) (ci : List Bool) :
    List Bool × List QueryEvent × List String :=
  if ned && anyTrue ci then
    let xids := deps.xmatchNed (objW.selectMask ci) sr colId
    let ci' := dropMatched ci (getIdVals objW colId) xids
    (ci', [QueryEvent.ned],
      if verbose then [toString (countTrue ci') ++ " remains after matching with NED"]
      else [])
  else (ci, [], [])

/-- Body of `filter_transient_candidates`, before pairing exceptions with
the (unmodified) caller table. -/
def filterBody (deps : FilterDeps) (obj : ObjTable) (sr? pixscale? : Option ℚ)
    (time? : Option (List ℚ)) (cat? : Option CatTable) (cat_col_ra cat_col_dec : String)
    (vizier : List String) (skybot ned flagged : Bool) (col_id? : Option String)
    (get_candidates verbose : Bool) : Except String FilterOut :=
  let sr := match sr? with
    | some s => s
    | none =>
      match pixscale? with
      | some p => npMedian (obj.fwhm.map (fun f => f * p)) / 2
      | none => 1 / 3600
  let colId := match col_id? with
    | some c => c
    | none => "stdpipe_id"
  -- when the identifier column is absent, work on a copy carrying a
  -- synthetic identifier; the caller's table `obj` is left untouched
  let objW := if hasCol obj colId then obj
    else { obj with extra := some (colId, arange (tlen obj)) }
  let out0 := if verbose then
    ["Candidate filtering routine started with " ++ toString (tlen objW) ++
      " initial candidates"] else []
  let ci0 : List Bool := List.replicate (tlen objW) true
  -- flagged-object removal; the count is reported through a bare `print`,
  -- emitted regardless of the verbose setting
  let ci1 := if flagged then andMask ci0 (objW.flags.map (fun f => decide (f = 0))) else ci0
  let out1 := if flagged then [toString (countTrue ci1) ++ " of them are unflagged"] else []
  match catStage deps objW cat? cat_col_ra cat_col_dec sr verbose ci1 with
  | Except.error e => Except.error e
  | Except.ok p2 =>
    match vizLoop deps objW colId sr verbose vizier p2.1 with
    | Except.error e => Except.error e
    | Except.ok r =>
      let p3 := skybotStage deps objW colId time? skybot verbose r.1
      let p4 := nedStage deps objW colId sr ned verbose p3.1
      let out5 := if verbose then
        [toString (countTrue p4.1) ++ " candidates remaining after filtering"] else []
      Except.ok ⟨(if get_candidates then Sum.inl (obj.selectMask p4.1) else Sum.inr p4.1),
        ci0,
        Stage.mk ci1 [] :: Stage.mk p2.1 [] ::
          (r.2.1 ++ [Stage.mk p3.1 p3.2.1, Stage.mk p4.1 p4.2.1]),
        out0 ++ out1 ++ p2.2 ++ r.2.2 ++ p3.2.2 ++ p4.2.2 ++ out5,
        obj⟩

/-- Embedding of `filter_transient_candidates(obj, sr, pixscale, time, cat, cat_col_ra,
cat_col_dec, vizier, skybot, ned, flagged, col_id, get_candidates,
verbose)`.  No assignment ever targets the caller's table, so an escaping
exception carries it unchanged. -/
def filter_transient_candidates (deps : FilterDeps) (obj : ObjTable)
    (sr? pixscale? : Option ℚ) (time? : Option (List ℚ)) (cat? : Option CatTable)
    (cat_col_ra cat_col_dec : String) (vizier : List String)
    (skybot ned flagged : Bool) (col_id? : Option String)
    (get_candidates verbose : Bool) : Except (String × ObjTable) FilterOut :=
  Except.mapError (fun e => (e, obj))
    (filterBody deps obj sr? pixscale? time? cat? cat_col_ra cat_col_dec vizier
      skybot ned flagged col_id? get_candidates verbose)

/-! ### Photometric calibration (`calibrate_photometry`) -/

/-- The Match Result returned by `photometry.match` in calibration mode:
the fitted zero-point function over pixel coordinates and the optional
colour-term coefficient. -/
structure CalMatch where
  zero_fn : List ℚ → List ℚ → List ℚ
  color_term : Option ℚ

/-- The photometric match-and-fit primitive as used by
`calibrate_photometry` (args in call order: obj ra, dec, mag, magerr,
flags, cat ra, dec, mag, sr, cat_color, obj x, y, spatial order,
threshold). -/
structure CalDeps where
  phot_match_cal : List ℚ → List ℚ → List ℚ → List ℚ → List ℕ →
    List ℚ → List ℚ → List ℚ → ℚ → List ℚ → List ℚ → List ℚ → ℕ → ℚ → Option CalMatch

/-- Result of a `calibrate_photometry` call: the match result (or `None`),
the final state of the caller's object table, and the number of calls made
to the match primitive. -/
structure CalOut where
  m : Option CalMatch
  obj : ObjTable
  nMatch : ℕ

/-- Embedding of `calibrate_photometry(obj, cat, sr, pixscale, order, threshold,
cat_col_mag, cat_col_mag1, cat_col_mag2, cat_col_ra, cat_col_dec, update,
verbose)`.  The colour argument `cat[cat_col_mag1] - cat[cat_col_mag2]`
is evaluated while building the argument list of the match call,
whatever the colour options are. -/
def calibrate_photometry (deps : CalDeps) (obj : ObjTable) (cat : CatTable)
    (sr? pixscale? : Option ℚ) (order : ℕ) (threshold : ℚ) (cat_col_mag : String)
    (cat_col_mag1 cat_col_mag2 : Option String) (cat_col_ra cat_col_dec : String)
    (update verbose : Bool) : Except (String × ObjTable) CalOut :=
  Except.mapError (fun e => (e, obj))
    (let sr := match sr? with
      | some s => s
      | none =>
        match pixscale? with
        | some p => npMedian (obj.fwhm.map (fun f => f * p)) / 2
        | none => 1 / 3600
    -- argument evaluation of the `photometry.match` call, in source order
    match cat.get cat_col_ra with
    | Except.error e => Except.error e
    | Except.ok cra =>
      match cat.get cat_col_dec with
      | Except.error e => Except.error e
      | Except.ok cdec =>
        match cat.get cat_col_mag with
        | Except.error e => Except.error e
        | Except.ok cmag =>
          match cat.getOpt cat_col_mag1 with
          | Except.error e => Except.error e
          | Except.ok c1 =>
            match cat.getOpt cat_col_mag2 with
            | Except.error e => Except.error e
            | Except.ok c2 =>
              let color := List.zipWith (fun u v => u - v) c1 c2
              match deps.phot_match_cal obj.ra obj.dec obj.mag obj.magerr obj.flags
                  cra cdec cmag sr color obj.x obj.y order threshold with
              | some m =>
                Except.ok ⟨some m,
                  (if update then
                    { obj with
                      mag_calib := some (List.zipWith (fun u v => u + v) obj.mag
                        (m.zero_fn obj.x obj.y)) }
                   else obj), 1⟩
              | none => Except.ok ⟨none, obj, 1⟩)

/-! ### Mask ordering and stage invariants -/

/-- Mask order: `a` marks a subset of the candidates `b` marks (same length,
pointwise implication). -/
def maskLe (a b : List Bool) : Prop :=
  List.Forall₂ (fun u v => u = true → v = true) a b

/-- All-false test on a mask (`not np.any`). -/
def allFalse (l : List Bool) : Bool := l.all (fun b => b = false)

theorem maskLe_refl (l : List Bool) : maskLe l l := by
  induction l with
  | nil => exact List.Forall₂.nil
  | cons b bs ih => exact List.Forall₂.cons (fun h => h) ih

theorem maskLe_length {a b : List Bool} (h : maskLe a b) : a.length = b.length :=
  List.Forall₂.length_eq h

theorem allFalse_of_maskLe {a b : List Bool} (h : maskLe a b)
    (hb : allFalse b = true) : allFalse a = true := by
  induction h with
  | nil => rfl
  | @cons u v as bs hi _ ih =>
    simp only [allFalse, List.all_cons, Bool.and_eq_true, decide_eq_true_eq] at hb ⊢
    refine ⟨?_, ih hb.2⟩
    cases u with
    | false => rfl
    | true => rw [hi rfl] at hb; exact hb.1

theorem anyTrue_eq_false_iff_allFalse (l : List Bool) :
    anyTrue l = false ↔ allFalse l = true := by
  simp [anyTrue, allFalse, List.any_eq_false, List.all_eq_true]

theorem maskLe_andMask (a b : List Bool) (hlen : b.length = a.length) :
    maskLe (andMask a b) a := by
  induction a generalizing b with
  | nil => cases b <;> simp_all [andMask, maskLe]
  | cons u us ih =>
    cases b with
    | nil => simp at hlen
    | cons v vs =>
      refine List.Forall₂.cons ?_ (ih vs (by simpa using hlen))
      cases u <;> cases v <;> simp

theorem andMask_length (a b : List Bool) (hlen : b.length = a.length) :
    (andMask a b).length = a.length := by
  simp [andMask, hlen]

theorem maskLe_setFalseAux (idxs : List ℕ) (l : List Bool) :
    ∀ i, maskLe (setFalseAux idxs i l) l := by
  induction l with
  | nil => intro i; exact List.Forall₂.nil
  | cons b bs ih =>
    intro i
    refine List.Forall₂.cons ?_ (ih (i + 1))
    split <;> simp

theorem maskLe_setFalse (l : List Bool) (idxs : List ℕ) :
    maskLe (setFalse l idxs) l := maskLe_setFalseAux idxs l 0

theorem setFalse_length (l : List Bool) (idxs : List ℕ) :
    (setFalse l idxs).length = l.length := maskLe_length (maskLe_setFalse l idxs)

theorem notMask_length (l : List Bool) : (notMask l).length = l.length := by
  simp [notMask]

theorem in1d_length (xs ys : List ℚ) : (in1d xs ys).length = xs.length := by
  simp [in1d]

/-- Well-formedness of a single narrowing stage relative to the incoming
mask `cur`: the stage mask has the row count `n`, only removes candidates,
and issues no query when no candidate survives on entry; the later stages
are well-formed relative to the stage's outgoing mask. -/
def stagesOk (n : ℕ) : List Bool → List Stage → Prop
  | _, [] => True
  | cur, st :: rest =>
    (st.mask.length = n ∧ maskLe st.mask cur ∧
      (allFalse cur = true → st.queries = [])) ∧ stagesOk n st.mask rest

/-- The mask after the last of a stage list (the incoming mask when the
list is empty). -/
def lastMask (cur : List Bool) : List Stage → List Bool
  | [] => cur
  | st :: rest => lastMask st.mask rest

theorem stagesOk_append {n : ℕ} :
    ∀ {xs : List Stage} {cur : List Bool} {ys : List Stage},
      stagesOk n cur xs → stagesOk n (lastMask cur xs) ys → stagesOk n cur (xs ++ ys) := by
  intro xs
  induction xs with
  | nil => intro cur ys _ hy; exact hy
  | cons st rest ih =>
    intro cur ys hx hy
    exact ⟨hx.1, ih hx.2 hy⟩

theorem stagesOk_const {n : ℕ} {cur : List Bool} (hlen : cur.length = n) :
    ∀ (L : List String), stagesOk n cur (L.map (fun _ => Stage.mk cur [])) := by
  intro L
  induction L with
  | nil => trivial
  | cons _ _ ih => exact ⟨⟨hlen, maskLe_refl cur, fun _ => rfl⟩, ih⟩

theorem lastMask_const {cur : List Bool} :
    ∀ (L : List String), lastMask cur (L.map (fun _ => Stage.mk cur [])) = cur := by
  intro L
  induction L with
  | nil => rfl
  | cons _ _ ih => exact ih

theorem lastMask_append (xs ys : List Stage) (cur : List Bool) :
    lastMask cur (xs ++ ys) = lastMask (lastMask cur xs) ys := by
  induction xs generalizing cur with
  | nil => rfl
  | cons st rest ih => exact ih st.mask

/-- Monotone narrowing: the chain of masks (incoming mask first, then each
stage's mask) is pointwise non-increasing. -/
theorem stagesOk_chain {n : ℕ} :
    ∀ (sts : List Stage) (cur : List Bool), stagesOk n cur sts →
      List.Chain' (fun a b => maskLe b a) (cur :: sts.map Stage.mask) := by
  intro sts
  induction sts with
  | nil => intro cur _; simp
  | cons st rest ih =>
    intro cur h
    exact List.Chain'.cons h.1.2.1 (ih st.mask h.2)

/-- Short-circuiting: once the mask entering some stage is empty, no later
stage (that one included) issues a query. -/
theorem stagesOk_queries {n : ℕ} :
    ∀ (sts : List Stage) (cur : List Bool), stagesOk n cur sts →
      ∀ i j, i ≤ j → j < sts.length →
        allFalse ((cur :: sts.map Stage.mask).getD i []) = true →
        (sts.getD j (Stage.mk [] [])).queries = [] := by
  intro sts
  induction sts with
  | nil => intro cur _ i j _ hj _; simp at hj
  | cons st rest ih =>
    intro cur h i j hij hj hall
    cases i with
    | zero =>
      have hcur : allFalse cur = true := by simpa using hall
      have hstmask : allFalse st.mask = true := allFalse_of_maskLe h.1.2.1 hcur
      cases j with
      | zero => simpa using h.1.2.2 hcur
      | succ j' =>
        have := ih st.mask h.2 0 j' (Nat.zero_le _) (by simpa using hj)
          (by simpa using hstmask)
        simpa using this
    | succ i' =>
      cases j with
      | zero => omega
      | succ j' =>
        have := ih st.mask h.2 i' j' (by omega) (by simpa using hj)
          (by simpa using hall)
        simpa using this

theorem arange_length (n : ℕ) : (arange n).length = n := by
  unfold arange
  rw [List.length_map, List.length_range]

theorem dropMatched_le (ci : List Bool) (idVals : List ℚ) (xids : Option (List ℚ))
    (hlen : idVals.length = ci.length) : maskLe (dropMatched ci idVals xids) ci := by
  cases xids with
  | none => exact maskLe_refl ci
  | some ids =>
    simp only [dropMatched]
    split
    · exact maskLe_andMask ci _ (by rw [notMask_length, in1d_length, hlen])
    · exact maskLe_refl ci

theorem dropMatched_length (ci : List Bool) (idVals : List ℚ) (xids : Option (List ℚ))
    (hlen : idVals.length = ci.length) : (dropMatched ci idVals xids).length = ci.length :=
  maskLe_length (dropMatched_le ci idVals xids hlen)

theorem getIdValsBase_length (t : ObjTable) (h : TableWF t) (c : String)
    (hc : ((((((((c = "ra" ∨ c = "dec") ∨ c = "x") ∨ c = "y") ∨ c = "mag") ∨
      c = "magerr") ∨ c = "flags") ∨ c = "fwhm") ∨
      (t.mag_calib.isSome = true ∧ c = "mag_calib")) ∨
      (t.time.isSome = true ∧ c = "time")) :
    (getIdVals.getIdValsBase t c).length = tlen t := by
  simp only [TableWF, tableWFb, Bool.and_eq_true, decide_eq_true_eq] at h
  obtain ⟨⟨⟨⟨⟨⟨⟨⟨⟨hdec, hx⟩, hy⟩, hmag⟩, hmagerr⟩, hflags⟩, hfwhm⟩, hmc⟩, ht⟩, _⟩ := h
  unfold getIdVals.getIdValsBase
  rcases hc with ((((((((rfl | rfl) | rfl) | rfl) | rfl) | rfl) | rfl) | rfl) |
    ⟨hs, rfl⟩) | ⟨hs, rfl⟩
  · rw [if_pos rfl]; rfl
  · rw [if_neg (by decide), if_pos rfl]; exact hdec
  · rw [if_neg (by decide), if_neg (by decide), if_pos rfl]; exact hx
  · rw [if_neg (by decide), if_neg (by decide), if_neg (by decide), if_pos rfl]; exact hy
  · rw [if_neg (by decide), if_neg (by decide), if_neg (by decide), if_neg (by decide),
      if_pos rfl]
    exact hmag
  · rw [if_neg (by decide), if_neg (by decide), if_neg (by decide), if_neg (by decide),
      if_neg (by decide), if_pos rfl]
    exact hmagerr
  · rw [if_neg (by decide), if_neg (by decide), if_neg (by decide), if_neg (by decide),
      if_neg (by decide), if_neg (by decide), if_neg (by decide), if_pos rfl]
    rw [List.length_map]
    exact hflags
  · rw [if_neg (by decide), if_neg (by decide), if_neg (by decide), if_neg (by decide),
      if_neg (by decide), if_neg (by decide), if_pos rfl]
    exact hfwhm
  · obtain ⟨l, hl⟩ := Option.isSome_iff_exists.mp hs
    rw [if_neg (by decide), if_neg (by decide), if_neg (by decide), if_neg (by decide),
      if_neg (by decide), if_neg (by decide), if_neg (by decide), if_neg (by decide),
      if_pos rfl, hl]
    rw [hl] at hmc
    simp only [Option.getD_some]
    simpa using hmc
  · obtain ⟨l, hl⟩ := Option.isSome_iff_exists.mp hs
    rw [if_neg (by decide), if_neg (by decide), if_neg (by decide), if_neg (by decide),
      if_neg (by decide), if_neg (by decide), if_neg (by decide), if_neg (by decide),
      if_neg (by decide), if_pos rfl, hl]
    rw [hl] at ht
    simp only [Option.getD_some]
    simpa using ht

theorem getIdVals_length (t : ObjTable) (h : TableWF t) (c : String)
    (hc : hasCol t c = true) : (getIdVals t c).length = tlen t := by
  unfold getIdVals
  cases hex : t.extra with
  | some p =>
    have he : p.2.length = tlen t := by
      have h' := h
      simp only [TableWF, tableWFb, Bool.and_eq_true, decide_eq_true_eq, hex] at h'
      exact h'.2
    by_cases hcp : c = p.1
    · show (if c = p.1 then p.2 else getIdVals.getIdValsBase t c).length = tlen t
      rw [if_pos hcp]; exact he
    · show (if c = p.1 then p.2 else getIdVals.getIdValsBase t c).length = tlen t
      rw [if_neg hcp]
      apply getIdValsBase_length t h c
      simp only [hasCol, hex, Bool.or_eq_true, Bool.and_eq_true, decide_eq_true_eq] at hc
      rcases hc with hbase | hcp'
      · exact hbase
      · exact absurd hcp' hcp
  | none =>
    show (getIdVals.getIdValsBase t c).length = tlen t
    apply getIdValsBase_length t h c
    simp only [hasCol, hex, Bool.or_eq_true, Bool.and_eq_true, decide_eq_true_eq,
      Bool.false_eq_true, or_false] at hc
    exact hc

theorem tableWF_withExtra (t : ObjTable) (h : TableWF t) (c : String) :
    TableWF { t with extra := some (c, arange (tlen t)) } := by
  simp only [TableWF, tableWFb, Bool.and_eq_true, decide_eq_true_eq] at h ⊢
  exact ⟨h.1, by simp [arange_length, tlen]⟩

theorem hasCol_withExtra (t : ObjTable) (c : String) :
    hasCol { t with extra := some (c, arange (tlen t)) } c = true := by
  simp [hasCol]

theorem catStage_ok {deps : FilterDeps} {objW : ObjTable} {cat? : Option CatTable}
    {ccra ccdec : String} {sr : ℚ} {verbose : Bool} {ci ci' : List Bool} {o : List String}
    (h : catStage deps objW cat? ccra ccdec sr verbose ci = Except.ok (ci', o)) :
    maskLe ci' ci ∧ ci'.length = ci.length := by
  cases cat? with
  | none =>
    simp only [catStage, Except.ok.injEq, Prod.mk.injEq] at h
    rw [← h.1]
    exact ⟨maskLe_refl ci, rfl⟩
  | some c =>
    simp only [catStage] at h
    split at h
    · cases hra : c.get ccra with
      | error e => rw [hra] at h; exact absurd h (by simp)
      | ok ra =>
        rw [hra] at h
        cases hde : c.get ccdec with
        | error e => rw [hde] at h; exact absurd h (by simp)
        | ok de =>
          rw [hde] at h
          simp only [Except.ok.injEq, Prod.mk.injEq] at h
          rw [← h.1]
          exact ⟨maskLe_setFalse ci _, setFalse_length ci _⟩
    · simp only [Except.ok.injEq, Prod.mk.injEq] at h
      rw [← h.1]
      exact ⟨maskLe_refl ci, rfl⟩

theorem vizLoop_ok {deps : FilterDeps} {objW : ObjTable} {colId : String} {sr : ℚ}
    {verbose : Bool} {n : ℕ} (hid : (getIdVals objW colId).length = n) :
    ∀ (names : List String) (ci : List Bool), ci.length = n →
      ∀ cf recs os, vizLoop deps objW colId sr verbose names ci = Except.ok (cf, recs, os) →
        stagesOk n ci recs ∧ lastMask ci recs = cf ∧ cf.length = n := by
  intro names
  induction names with
  | nil =>
    intro ci hci cf recs os h
    simp only [vizLoop, Except.ok.injEq, Prod.mk.injEq] at h
    rw [← h.1, ← h.2.1]
    exact ⟨trivial, rfl, hci⟩
  | cons catname rest ih =>
    intro ci hci cf recs os h
    unfold vizLoop at h
    split at h
    · -- break: the remaining catalogues are skipped
      simp only [Except.ok.injEq, Prod.mk.injEq] at h
      rw [← h.1, ← h.2.1]
      exact ⟨stagesOk_const hci _, by rw [lastMask_const], hci⟩
    · -- one catalogue processed, then the rest of the loop
      rename_i hany
      have hanyT : anyTrue ci = true := by
        cases hx : anyTrue ci with
        | false => exact absurd hx hany
        | true => rfl
      have hempty : allFalse ci = true → ([QueryEvent.viz catname] : List QueryEvent) = [] := by
        intro hall
        rw [← anyTrue_eq_false_iff_allFalse] at hall
        rw [hanyT] at hall
        exact absurd hall (by simp)
      have hlen' : (dropMatched ci (getIdVals objW colId)
          (deps.xmatchObjects (objW.selectMask ci) catname sr)).length = n := by
        rw [dropMatched_length ci _ _ (by rw [hid, hci])]; exact hci
      split at h
      · exact absurd h (by simp)
      · split at h
        · exact absurd h (by simp)
        · rename_i r hrec
          simp only [Except.ok.injEq, Prod.mk.injEq] at h
          obtain ⟨rfl, hrecs, rfl⟩ := h
          obtain ⟨hok, hlast, hcf⟩ := ih _ hlen' r.1 r.2.1 r.2.2 hrec
          rw [← hrecs]
          exact ⟨⟨⟨hlen', dropMatched_le ci _ _ (by rw [hid, hci]), hempty⟩, hok⟩,
            hlast, hcf⟩

theorem skybotStage_ok (deps : FilterDeps) (objW : ObjTable) (colId : String)
    (time? : Option (List ℚ)) (skybot verbose : Bool) (ci : List Bool) (n : ℕ)
    (hid : (getIdVals objW colId).length = n) (hci : ci.length = n) :
    (skybotStage deps objW colId time? skybot verbose ci).1.length = n ∧
    maskLe (skybotStage deps objW colId time? skybot verbose ci).1 ci ∧
    (allFalse ci = true →
      (skybotStage deps objW colId time? skybot verbose ci).2.1 = []) := by
  unfold skybotStage
  split
  · rename_i hguard
    split
    · refine ⟨by rw [dropMatched_length ci _ _ (by rw [hid, hci])]; exact hci,
        dropMatched_le ci _ _ (by rw [hid, hci]), ?_⟩
      intro hall
      rw [Bool.and_eq_true] at hguard
      rw [← anyTrue_eq_false_iff_allFalse] at hall
      rw [hguard.2] at hall
      exact absurd hall (by simp)
    · exact ⟨hci, maskLe_refl ci, fun _ => rfl⟩
  · exact ⟨hci, maskLe_refl ci, fun _ => rfl⟩

theorem nedStage_ok (deps : FilterDeps) (objW : ObjTable) (colId : String) (sr : ℚ)
    (ned verbose : Bool) (ci : List Bool) (n : ℕ)
    (hid : (getIdVals objW colId).length = n) (hci : ci.length = n) :
    (nedStage deps objW colId sr ned verbose ci).1.length = n ∧
    maskLe (nedStage deps objW colId sr ned verbose ci).1 ci ∧
    (allFalse ci = true → (nedStage deps objW colId sr ned verbose ci).2.1 = []) := by
  unfold nedStage
  split
  · rename_i hguard
    refine ⟨by rw [dropMatched_length ci _ _ (by rw [hid, hci])]; exact hci,
      dropMatched_le ci _ _ (by rw [hid, hci]), ?_⟩
    intro hall
    rw [Bool.and_eq_true] at hguard
    rw [← anyTrue_eq_false_iff_allFalse] at hall
    rw [hguard.2] at hall
    exact absurd hall (by simp)
  · exact ⟨hci, maskLe_refl ci, fun _ => rfl⟩

/-! ### Properties of the refiner loop -/

theorem if_bool_false {α : Sort _} (a b : α) : (if false = true then a else b) = b := rfl

theorem initObj_wcs_none {W : Type} (deps : RefineDeps W) (obj : ObjTable) :
    initObj deps none obj = obj := rfl

theorem initObj_idem {W : Type} (deps : RefineDeps W) (wcs : Option W) (obj : ObjTable) :
    initObj deps wcs (initObj deps wcs obj) = initObj deps wcs obj := by
  cases wcs with
  | none => rfl
  | some w => rfl

/-- With `update = False` the loop never writes to the object table: both a
normal return and an escaping exception leave it as it entered the loop. -/
theorem refineLoop_obj_const {W : Type} (deps : RefineDeps W) (cat : CatTable) (sr : ℚ)
    (order : ℕ) (cme? : Option String) (cra cdec cmag : String) (use_phot : Bool)
    (min_m : ℕ) (method : String) :
    ∀ (n : ℕ) (w : Option W) (obj : ObjTable) (a b : ℕ),
      (∀ out, refineLoop deps cat sr order cme? cra cdec cmag use_phot min_m method false
          n w obj a b = Except.ok out → out.obj = obj) ∧
      (∀ e, refineLoop deps cat sr order cme? cra cdec cmag use_phot min_m method false
          n w obj a b = Except.error e → e.2 = obj) := by
  intro n
  induction n with
  | zero =>
    intro w obj a b
    constructor
    · intro out h
      simp only [refineLoop, Except.ok.injEq] at h
      rw [← h]
    · intro e h
      simp [refineLoop] at h
  | succ n ih =>
    intro w obj a b
    constructor
    · intro out h
      simp only [refineLoop] at h
      split at h
      · split at h
        · exact absurd h (by simp)
        · split at h
          · exact absurd h (by simp)
          · split at h
            · simp only [Except.ok.injEq] at h
              rw [← h]
            · rw [if_bool_false] at h
              exact (ih _ _ _ _).1 out h
      · rw [if_bool_false] at h
        exact (ih _ _ _ _).1 out h
    · intro e h
      simp only [refineLoop] at h
      split at h
      · split at h
        · simp only [Except.error.injEq] at h
          rw [← h]
        · split at h
          · simp only [Except.error.injEq] at h
            rw [← h]
          · split at h
            · exact absurd h (by simp)
            · rw [if_bool_false] at h
              exact (ih _ _ _ _).2 e h
      · rw [if_bool_false] at h
        exact (ih _ _ _ _).2 e h

/-- The photometric loop runs exactly `n` iterations when every iteration
succeeds, incrementing both call counters once per iteration and ending in
the iterated state. -/
theorem refineLoop_phot_eq_iter {W : Type} (deps : RefineDeps W) (cat : CatTable)
    (sr : ℚ) (order : ℕ) (cme? : Option String) (cra cdec cmag : String)
    (min_m : ℕ) (method : String) (update : Bool) :
    ∀ (n : ℕ) (w : Option W) (obj : ObjTable) (a b : ℕ) (sfin : Option W × ObjTable),
      iterateO (photIterStep deps cat sr order cme? cra cdec cmag min_m method update)
        n (w, obj) = some sfin →
      refineLoop deps cat sr order cme? cra cdec cmag true min_m method update
        n w obj a b = Except.ok ⟨sfin.1, sfin.2, a + n, b + n, 0⟩ := by
  intro n
  induction n with
  | zero =>
    intro w obj a b sfin hit
    simp only [iterateO, Option.some.injEq] at hit
    rw [← hit]
    simp [refineLoop]
  | succ n ih =>
    intro w obj a b sfin hit
    simp only [iterateO] at hit
    cases hstep : photIterStep deps cat sr order cme? cra cdec cmag min_m method update
        (w, obj) with
    | none => rw [hstep] at hit; exact absurd hit (by simp)
    | some s1 =>
      rw [hstep] at hit
      simp only [photIterStep] at hstep
      simp only [refineLoop, if_true]
      split
      · rename_i e hcc
        simp only [hcc] at hstep
        exact absurd hstep (by simp)
      · rename_i cols hcc
        simp only [hcc] at hstep
        split
        · rename_i hpm
          simp only [hpm] at hstep
          exact absurd hstep (by simp)
        · rename_i m hpm
          simp only [hpm] at hstep
          split
          · rename_i hlt
            rw [if_pos hlt] at hstep
            exact absurd hstep (by simp)
          · rename_i hlt
            rw [if_neg hlt] at hstep
            simp only [Option.some.injEq] at hstep
            rw [(by omega : a + (n + 1) = (a + 1) + n), (by omega : b + (n + 1) = (b + 1) + n)]
            rw [← hstep] at hit
            exact ih _ _ (a + 1) (b + 1) sfin hit

/-- The positional loop always runs exactly `n` iterations: the positional
fit is counted once per iteration and the final state is the iterate of
`posStep`. -/
theorem refineLoop_pos_eq_iter {W : Type} (deps : RefineDeps W) (cat : CatTable)
    (sr : ℚ) (order : ℕ) (cme? : Option String) (cra cdec cmag : String)
    (min_m : ℕ) (method : String) (update : Bool) :
    ∀ (n : ℕ) (w : Option W) (obj : ObjTable) (a b : ℕ),
      refineLoop deps cat sr order cme? cra cdec cmag false min_m method update
        n w obj a b =
      Except.ok ⟨((posStep deps cat sr order method update)^[n] (w, obj)).1,
        ((posStep deps cat sr order method update)^[n] (w, obj)).2, a, b + n, 0⟩ := by
  intro n
  induction n with
  | zero => intro w obj a b; simp [refineLoop]
  | succ n ih =>
    intro w obj a b
    simp only [refineLoop, if_bool_false]
    rw [ih (some (deps.refine_wcs obj cat order (some sr) true method))
      (if update then
        reproject deps (deps.refine_wcs obj cat order (some sr) true method) obj else obj)
      a (b + 1)]
    rw [(by omega : b + (n + 1) = (b + 1) + n)]
    rw [Function.iterate_succ_apply]
    rfl

/-! ### Inversion of a successful filter run -/

theorem mapError_ok_iff {ε ε' α : Type _} (f : ε → ε') (e : Except ε α) (a : α) :
    Except.mapError f e = Except.ok a ↔ e = Except.ok a := by
  cases e <;> simp [Except.mapError]

theorem TableWF.flags_length {t : ObjTable} (h : TableWF t) : t.flags.length = tlen t := by
  simp only [TableWF, tableWFb, Bool.and_eq_true, decide_eq_true_eq] at h
  exact h.1.1.1.1.2

theorem selectMask_extra_none (t : ObjTable) (m : List Bool) (h : t.extra = none) :
    (t.selectMask m).extra = none := by
  simp [ObjTable.selectMask, h]

/-- Everything a successful `filter_transient_candidates` run guarantees:
the caller's table comes back untouched, the initial mask is all-true with
one entry per row, the recorded stages narrow monotonically and stop
querying once empty, and the returned value is determined by the final
surviving mask over the caller's original table. -/
theorem filterBody_ok_spec {deps : FilterDeps} {obj : ObjTable} {sr? pixscale? : Option ℚ}
    {time? : Option (List ℚ)} {cat? : Option CatTable} {ccra ccdec : String}
    {vizier : List String} {skybot ned flagged : Bool} {col_id? : Option String}
    {get_candidates verbose : Bool} {out : FilterOut}
    (hwf : TableWF obj)
    (h : filterBody deps obj sr? pixscale? time? cat? ccra ccdec vizier skybot ned
      flagged col_id? get_candidates verbose = Except.ok out) :
    out.callerTable = obj ∧
    out.initMask = List.replicate (tlen obj) true ∧
    stagesOk (tlen obj) out.initMask out.stages ∧
    (lastMask out.initMask out.stages).length = tlen obj ∧
    (get_candidates = true →
      out.result = Sum.inl (obj.selectMask (lastMask out.initMask out.stages))) ∧
    (get_candidates = false →
      out.result = Sum.inr (lastMask out.initMask out.stages)) := by
  simp only [filterBody] at h
  split at h
  · exact absurd h (by simp)
  · rename_i p2 hcat
    split at h
    · exact absurd h (by simp)
    · rename_i r hviz
      simp only [Except.ok.injEq] at h
      subst h
      revert hcat hviz
      set C : String := (match col_id? with
        | some c => c
        | none => "stdpipe_id") with hC
      set objW : ObjTable := (if hasCol obj C = true then obj
        else { obj with extra := some (C, arange (tlen obj)) }) with hWdef
      have hwfW : TableWF objW := by
        rw [hWdef]
        split
        · exact hwf
        · exact tableWF_withExtra obj hwf C
      have hcolW : hasCol objW C = true := by
        rw [hWdef]
        split
        · rename_i hc; exact hc
        · exact hasCol_withExtra obj C
      have hlenW : tlen objW = tlen obj := by
        rw [hWdef]
        split <;> rfl
      have hid : (getIdVals objW C).length = tlen obj := by
        rw [getIdVals_length objW hwfW C hcolW, hlenW]
      have hflagsW : objW.flags.length = tlen obj := by
        rw [TableWF.flags_length hwfW, hlenW]
      set ci0 : List Bool := List.replicate (tlen objW) true with hci0def
      set ci1 : List Bool := (if flagged = true then
        andMask ci0 (List.map (fun f => decide (f = 0)) objW.flags) else ci0) with hci1def
      set srE : ℚ := (match sr? with
        | some s => s
        | none =>
          match pixscale? with
          | some p => npMedian (List.map (fun f => f * p) obj.fwhm) / 2
          | none => 1 / 3600) with hsrE
      intro hcat hviz
      have hci0len : ci0.length = tlen obj := by
        rw [hci0def, List.length_replicate, hlenW]
      have hci1le : maskLe ci1 ci0 := by
        rw [hci1def]
        split
        · exact maskLe_andMask ci0 _ (by rw [List.length_map, hflagsW, hci0len])
        · exact maskLe_refl ci0
      have hci1len : ci1.length = tlen obj := by
        rw [hci1def]
        split
        · rw [andMask_length ci0 _ (by rw [List.length_map, hflagsW, hci0len]), hci0len]
        · exact hci0len
      obtain ⟨hp2le, hp2len⟩ := catStage_ok hcat
      have hp2len' : p2.1.length = tlen obj := by rw [hp2len, hci1len]
      obtain ⟨hvOk, hvLast, hvLen⟩ := vizLoop_ok hid vizier p2.1 hp2len' r.1 r.2.1 r.2.2 hviz
      obtain ⟨hsLen, hsLe, hsEmpty⟩ :=
        skybotStage_ok deps objW C time? skybot verbose r.1 (tlen obj) hid hvLen
      obtain ⟨hnLen, hnLe, hnEmpty⟩ :=
        nedStage_ok deps objW C srE ned verbose
          (skybotStage deps objW C time? skybot verbose r.1).1 (tlen obj) hid hsLen
      have hfin : lastMask ci0 (Stage.mk ci1 [] :: Stage.mk p2.1 [] :: (r.2.1 ++
          [Stage.mk (skybotStage deps objW C time? skybot verbose r.1).1
            (skybotStage deps objW C time? skybot verbose r.1).2.1,
           Stage.mk (nedStage deps objW C srE ned verbose
              (skybotStage deps objW C time? skybot verbose r.1).1).1
            (nedStage deps objW C srE ned verbose
              (skybotStage deps objW C time? skybot verbose r.1).1).2.1])) =
          (nedStage deps objW C srE ned verbose
            (skybotStage deps objW C time? skybot verbose r.1).1).1 := by
        show lastMask p2.1 (r.2.1 ++ [Stage.mk _ _, Stage.mk _ _]) = _
        rw [lastMask_append, hvLast]
        rfl
      refine ⟨rfl, by rw [hci0def, hlenW], ?_, ?_, ?_, ?_⟩
      · refine ⟨⟨hci1len, hci1le, fun _ => rfl⟩, ⟨hp2len', hp2le, fun _ => rfl⟩, ?_⟩
        apply stagesOk_append hvOk
        rw [hvLast]
        exact ⟨⟨hsLen, hsLe, hsEmpty⟩, ⟨hnLen, hnLe, hnEmpty⟩, trivial⟩
      · rw [hfin]
        exact hnLen
      · intro hgc
        rw [hgc]
        rw [if_pos rfl]
        rw [hfin]
      · intro hgc
        rw [hgc]
        rw [if_bool_false]
        rw [hfin]

/-! ### Concrete instances used by witnesses and counterexamples -/

/-- A small reference catalogue with the default column names. -/
def demoCat : CatTable := ⟨[("RAJ2000", [0]), ("DEJ2000", [0]), ("V", [10])]⟩

/-- A one-row object table. -/
def demoObj : ObjTable :=
  ⟨[0], [0], [5], [6], [12], [1], [0], [2], none, none, none⟩

/-- Refiner collaborators whose photometric match yields no result. -/
def noneMatchDeps : RefineDeps Unit where
  all_pix2world := fun _ xs ys => (xs, ys)
  phot_match := fun _ _ _ _ _ _ _ _ _ _ => none
  refine_wcs := fun _ _ _ _ _ _ => ()
  refine_wcs_scamp := fun _ _ _ _ _ _ _ _ _ _ _ _ _ => none

/-- Refiner collaborators whose initial reprojection visibly moves the
sky positions (`ra` becomes `y`, `dec` becomes `x`). -/
def shiftDeps : RefineDeps Unit where
  all_pix2world := fun _ xs ys => (ys, xs)
  phot_match := fun _ _ _ _ _ _ _ _ _ _ => none
  refine_wcs := fun _ _ _ _ _ _ => ()
  refine_wcs_scamp := fun _ _ _ _ _ _ _ _ _ _ _ _ _ => none

/-- Refiner collaborators over natural-number WCS solutions whose fit
always returns `42`. -/
def posDeps : RefineDeps ℕ where
  all_pix2world := fun _ xs ys => (xs, ys)
  phot_match := fun _ _ _ _ _ _ _ _ _ _ => none
  refine_wcs := fun _ _ _ _ _ _ => 42
  refine_wcs_scamp := fun _ _ _ _ _ _ _ _ _ _ _ _ _ => none

/-- Filter collaborators: the spatial matcher always matches row 0, the
external catalogue returns the identifier 1, the moving-object and
extragalactic services return nothing. -/
def fDemoDeps : FilterDeps where
  htmMatch := fun _ _ _ _ _ => [0]
  xmatchObjects := fun _ _ _ => some [1]
  catalogName := fun _ => some ("PanSTARRS DR1 catalogue")
  xmatchSkybot := fun _ _ _ => some []
  xmatchNed := fun _ _ _ => none

/-- A three-row object table whose third row is flagged. -/
def fDemoObj : ObjTable :=
  ⟨[10, 11, 12], [20, 20, 20], [1, 2, 3], [1, 2, 3], [12, 13, 14],
   [1, 1, 1], [0, 0, 1], [2, 2, 2], none, none, none⟩

/-- A one-row local reference catalogue for the filter. -/
def fDemoCat : CatTable := ⟨[("RAJ2000", [10]), ("DEJ2000", [20])]⟩

/-- The successful filter run used by the C3 witness (mask requested). -/
def c3Out : FilterOut :=
  match filter_transient_candidates fDemoDeps fDemoObj (some (1/3600)) none
      (some [59000]) (some fDemoCat) "RAJ2000" "DEJ2000" ["ps1"] true true true
      none false false with
  | Except.ok o => o
  | Except.error _ => ⟨Sum.inr [], [], [], [], fDemoObj⟩

/-- The successful filter run used by the C8 witness (candidates requested). -/
def c8Out : FilterOut :=
  match filter_transient_candidates fDemoDeps fDemoObj (some (1/3600)) none
      (some [59000]) (some fDemoCat) "RAJ2000" "DEJ2000" ["ps1"] true true true
      none true false with
  | Except.ok o => o
  | Except.error _ => ⟨Sum.inr [], [], [], [], fDemoObj⟩

/-- The filter run used by the C10 theorem: not verbose, flagged removal
enabled, no catalogue stages. -/
def c10Out : FilterOut :=
  match filter_transient_candidates fDemoDeps fDemoObj (some (1/3600)) none
      none none ("RAJ2000") "DEJ2000" [] false false true none true false with
  | Except.ok o => o
  | Except.error _ => ⟨Sum.inr [], [], [], [], fDemoObj⟩

/-- The result of the refiner run used by the C2 amended witness. -/
def c2aOut : RefineOut Unit := ⟨none, demoObj, 0, 0, 0⟩

/-- The result of the refiner run used by the C2 counterexample: a WCS
guess is supplied, `update = False`, and the loop does not run at all. -/
def c2cOut : RefineOut Unit :=
  match refine_astrometry shiftDeps demoObj demoCat (10/3600) (some ()) 0 ("V") none
      ("RAJ2000") "DEJ2000" "e_RAJ2000" "e_DEJ2000" 0 true 5 ("astropy") false false with
  | Except.ok o => o
  | Except.error _ => ⟨none, demoObj, 0, 0, 0⟩

/-- The result of the refiner run used by the C7 witness. -/
def c7Out : RefineOut ℕ := ⟨some 42, demoObj, 0, 1, 0⟩

/-! ### The claims -/

/-- C5: with `method='scamp'` the iterative match-fit loop of
`refine_astrometry` is never entered — the photometric match and the
in-process WCS fit are called zero times — and the result of the delegated
external whole-field solver is returned directly. -/
theorem c5_scamp_bypasses_iterative_loop {W : Type} (deps : RefineDeps W)
    (obj : ObjTable) (cat : CatTable) (sr : ℚ) (wcs : Option W) (order : ℕ)
    (cmag : String) (cme : Option String) (cra cdec crae cdece : String)
    (n_iter : ℕ) (use_phot : Bool) (min_m : ℕ) (method : String)
    (update verbose : Bool) (hm : method = "scamp") :
    refine_astrometry deps obj cat sr wcs order cmag cme cra cdec crae cdece
      n_iter use_phot min_m method update verbose =
    Except.ok ⟨deps.refine_wcs_scamp (initObj deps wcs obj) cat sr wcs order
        cmag cme cra cdec crae cdece update verbose,
      initObj deps wcs obj, 0, 0, 1⟩ := by
  subst hm
  simp only [refine_astrometry, if_true]

/-- C5 witness: a concrete scamp-mode call, with the hypothesis
discharged at `method = "scamp"`. -/
theorem c5_scamp_bypasses_iterative_loop_witness :
    refine_astrometry noneMatchDeps demoObj demoCat (10/3600) none 0 ("V") none
      ("RAJ2000") "DEJ2000" "e_RAJ2000" "e_DEJ2000" 3 true 5 ("scamp") true false =
    Except.ok ⟨noneMatchDeps.refine_wcs_scamp (initObj noneMatchDeps none demoObj)
        demoCat (10/3600) none 0 ("V") none ("RAJ2000") "DEJ2000" "e_RAJ2000" "e_DEJ2000"
        true false,
      initObj noneMatchDeps none demoObj, 0, 0, 1⟩ :=
  c5_scamp_bypasses_iterative_loop noneMatchDeps demoObj demoCat (10/3600) none 0 ("V")
    none ("RAJ2000") "DEJ2000" "e_RAJ2000" "e_DEJ2000" 3 true 5 ("scamp") true false rfl

/-- C6: with any method other than `'scamp'`, the match-fit loop of
`refine_astrometry` runs exactly `n_iter` times with no early exit
(photometric matches counted once per iteration on the photometric path,
none on the positional path; the fit counted once per iteration), and the
returned WCS is the final iterate — in particular, for `n_iter = 0` the
caller-supplied WCS guess (or `None`) is returned with no matching. -/
theorem c6_loop_runs_exactly_n_iterations {W : Type} (deps : RefineDeps W)
    (obj : ObjTable) (cat : CatTable) (sr : ℚ) (wcs : Option W) (order : ℕ)
    (cmag : String) (cme : Option String) (cra cdec crae cdece : String)
    (n_iter : ℕ) (use_phot : Bool) (min_m : ℕ) (method : String)
    (update verbose : Bool) (sfin : Option W × ObjTable)
    (hm : method ≠ "scamp")
    (hgood : use_phot = true →
      iterateO (photIterStep deps cat sr order cme cra cdec cmag min_m method update)
        n_iter (wcs, initObj deps wcs obj) = some sfin)
    (hpos : use_phot = false →
      sfin = (posStep deps cat sr order method update)^[n_iter] (wcs, initObj deps wcs obj)) :
    refine_astrometry deps obj cat sr wcs order cmag cme cra cdec crae cdece
      n_iter use_phot min_m method update verbose =
    Except.ok ⟨sfin.1, sfin.2, (if use_phot then n_iter else 0), n_iter, 0⟩ := by
  cases use_phot with
  | true =>
    have hit := hgood rfl
    simp only [refine_astrometry]
    rw [if_neg hm]
    have := refineLoop_phot_eq_iter deps cat sr order cme cra cdec cmag min_m method
      update n_iter wcs (initObj deps wcs obj) 0 0 sfin hit
    simpa using this
  | false =>
    have hfin := hpos rfl
    subst hfin
    simp only [refine_astrometry]
    rw [if_neg hm]
    have := refineLoop_pos_eq_iter deps cat sr order cme cra cdec cmag min_m method
      update n_iter wcs (initObj deps wcs obj) 0 0
    simpa using this

/-- C6 witness: one positional iteration on concrete inputs; the loop runs
once, performs one fit and no photometric match, and returns that fit. -/
theorem c6_loop_runs_exactly_n_iterations_witness :
    ("astropy" : String) ≠ "scamp" ∧
    refine_astrometry posDeps demoObj demoCat 1 none 0 ("V") none ("RAJ2000") "DEJ2000"
      "e_RAJ2000" "e_DEJ2000" 1 false 5 ("astropy") false false =
    Except.ok ⟨some 42, demoObj, 0, 1, 0⟩ :=
  ⟨by decide,
    c6_loop_runs_exactly_n_iterations posDeps demoObj demoCat 1 none 0 ("V") none
      ("RAJ2000") "DEJ2000" "e_RAJ2000" "e_DEJ2000" 1 false 5 ("astropy") false false
      (some 42, demoObj) (by decide)
      (fun h => absurd h Bool.false_ne_true) (fun _ => rfl)⟩

/-- C7: running `refine_astrometry` with `n_iter = 1` and `update = False`
twice with identical parameters is idempotent: the first call leaves the
state the second call reads in place (the only write, the initial
reprojection from a supplied WCS guess, is recomputed identically by the
second call), and the second call returns exactly the same result. -/
theorem c7_refine_idempotent_without_update {W : Type} (deps : RefineDeps W)
    (obj : ObjTable) (cat : CatTable) (sr : ℚ) (wcs : Option W) (order : ℕ)
    (cmag : String) (cme : Option String) (cra cdec crae cdece : String)
    (use_phot : Bool) (min_m : ℕ) (method : String) (verbose : Bool)
    (out : RefineOut W)
    (h : refine_astrometry deps obj cat sr wcs order cmag cme cra cdec crae cdece
      1 use_phot min_m method false verbose = Except.ok out) :
    refine_astrometry deps out.obj cat sr wcs order cmag cme cra cdec crae cdece
      1 use_phot min_m method false verbose = Except.ok out := by
  by_cases hm : method = "scamp"
  · subst hm
    simp only [refine_astrometry, if_true] at h ⊢
    have h' := h
    simp only [Except.ok.injEq] at h'
    have hobj : out.obj = initObj deps wcs obj := by rw [← h']
    rw [hobj, initObj_idem]
    exact h
  · simp only [refine_astrometry] at h ⊢
    rw [if_neg hm] at h ⊢
    have hobj : out.obj = initObj deps wcs obj :=
      (refineLoop_obj_const deps cat sr order cme cra cdec cmag use_phot min_m method
        1 wcs (initObj deps wcs obj) 0 0).1 out h
    rw [hobj, initObj_idem]
    exact h

/-- C7 witness: a concrete positional run with `update = False`; the second
call on the state left by the first returns the identical result. -/
theorem c7_refine_idempotent_without_update_witness :
    refine_astrometry posDeps c7Out.obj demoCat 1 none 0 ("V") none ("RAJ2000") "DEJ2000"
      "e_RAJ2000" "e_DEJ2000" 1 false 5 ("astropy") false false = Except.ok c7Out :=
  c7_refine_idempotent_without_update posDeps demoObj demoCat 1 none 0 ("V") none
    ("RAJ2000") "DEJ2000" "e_RAJ2000" "e_DEJ2000" false 5 ("astropy") false c7Out rfl

/-- C2 counterexample: with `update = False` and `method = 'astropy'`, a
call that supplies an initial WCS guess overwrites the caller table's
`ra`/`dec` columns (here before the loop even runs, `n_iter = 0`), so the
claim "the object table is left unchanged, including when an initial WCS
guess is provided" is false on the code. -/
theorem c2_counterexample_wcs_guess_mutates :
    ∃ out, refine_astrometry shiftDeps demoObj demoCat (10/3600) (some ()) 0 ("V") none
      ("RAJ2000") "DEJ2000" "e_RAJ2000" "e_DEJ2000" 0 true 5 ("astropy") false false =
      Except.ok out ∧ out.obj ≠ demoObj :=
  ⟨c2cOut, rfl, by decide⟩

/-- C2 (amended): with `update = False`, a method other than `'scamp'` and
no initial WCS guess (`wcs = None`), `refine_astrometry` leaves the
caller's object table unchanged — on a normal return and on an escaping
exception alike.  When a WCS guess is supplied the routine overwrites the
table's `ra`/`dec` columns from it even with `update = False`. -/
theorem c2_amended_no_update_no_wcs_preserves_table {W : Type} (deps : RefineDeps W)
    (obj : ObjTable) (cat : CatTable) (sr : ℚ) (order : ℕ)
    (cmag : String) (cme : Option String) (cra cdec crae cdece : String)
    (n_iter : ℕ) (use_phot : Bool) (min_m : ℕ) (method : String) (verbose : Bool)
    (hm : method ≠ "scamp") :
    (∀ out, refine_astrometry deps obj cat sr none order cmag cme cra cdec crae cdece
      n_iter use_phot min_m method false verbose = Except.ok out → out.obj = obj) ∧
    (∀ e, refine_astrometry deps obj cat sr none order cmag cme cra cdec crae cdece
      n_iter use_phot min_m method false verbose = Except.error e → e.2 = obj) := by
  simp only [refine_astrometry, initObj]
  rw [if_neg hm]
  exact refineLoop_obj_const deps cat sr order cme cra cdec cmag use_phot min_m method
    n_iter none obj 0 0

/-- C2 amended witness: a concrete no-guess, no-update run; the table
comes back unchanged. -/
theorem c2_amended_no_update_no_wcs_preserves_table_witness :
    ("astropy" : String) ≠ "scamp" ∧ c2aOut.obj = demoObj :=
  ⟨by decide,
    (c2_amended_no_update_no_wcs_preserves_table shiftDeps demoObj demoCat (10/3600) 0
      ("V") none ("RAJ2000") "DEJ2000" "e_RAJ2000" "e_DEJ2000" 0 true 5 ("astropy") false
      (by decide)).1 c2aOut rfl⟩

/-- C1: when `photometry.match` returns `None`, the guard
`if not m or np.sum(m['idx']) < min_matches:` is taken as intended, but the
diagnostic message argument `np.sum(m['idx'])` is evaluated before the
`return None` and subscripts `None`, so the call raises a `TypeError`
instead of returning `None`.  Concrete run of the code at the failing
input. -/
theorem c1_match_none_raises_typeerror :
    refine_astrometry noneMatchDeps demoObj demoCat (10/3600) none 0 ("V") none
      ("RAJ2000") "DEJ2000" "e_RAJ2000" "e_DEJ2000" 3 true 5 ("astropy") true false =
    Except.error (noneSubscriptMsg, demoObj) := rfl

/-- C3: in `filter_transient_candidates` the surviving-candidate mask is
non-increasing across the recorded stage sequence (flagged removal,
local-catalogue match, each external catalogue, moving-object,
extragalactic): every stage only removes candidates; and once the set
entering some stage is empty, no stage from that point on issues an
external-catalogue, moving-object or extragalactic query. -/
theorem c3_filter_monotonic_narrowing_and_shortcircuit (deps : FilterDeps)
    (obj : ObjTable) (sr? pixscale? : Option ℚ) (time? : Option (List ℚ))
    (cat? : Option CatTable) (ccra ccdec : String) (vizier : List String)
    (skybot ned flagged : Bool) (col_id? : Option String)
    (get_candidates verbose : Bool) (out : FilterOut)
    (hwf : TableWF obj)
    (hok : filter_transient_candidates deps obj sr? pixscale? time? cat? ccra ccdec
      vizier skybot ned flagged col_id? get_candidates verbose = Except.ok out) :
    List.Chain' (fun a b => maskLe b a) (out.initMask :: out.stages.map Stage.mask) ∧
    (∀ i j, i ≤ j → j < out.stages.length →
      allFalse ((out.initMask :: out.stages.map Stage.mask).getD i []) = true →
      (out.stages.getD j (Stage.mk [] [])).queries = []) := by
  unfold filter_transient_candidates at hok
  rw [mapError_ok_iff] at hok
  obtain ⟨-, -, hOk, -, -, -⟩ := filterBody_ok_spec hwf hok
  exact ⟨stagesOk_chain out.stages out.initMask hOk,
    fun i j hij hj hall => stagesOk_queries out.stages out.initMask hOk i j hij hj hall⟩

/-- C3 witness: a concrete run (three candidates; the flagged stage, the
local catalogue and the first external catalogue empty the set) satisfies
the monotone-narrowing chain. -/
theorem c3_filter_monotonic_narrowing_and_shortcircuit_witness :
    TableWF fDemoObj ∧
    List.Chain' (fun a b => maskLe b a) (c3Out.initMask :: c3Out.stages.map Stage.mask) :=
  ⟨by decide,
    (c3_filter_monotonic_narrowing_and_shortcircuit fDemoDeps fDemoObj (some (1/3600))
      none (some [59000]) (some fDemoCat) "RAJ2000" "DEJ2000" ["ps1"] true true true
      none false false c3Out (by decide) rfl).1⟩

/-- C8: `filter_transient_candidates` never mutates the caller's table:
the table observable after the call equals the input (the synthetic
identifier is added to a copy only); with `get_candidates` the returned
value is the row subset of the caller's original table selected by the
final surviving mask (so the synthetic column cannot leak into it), and
with a mask requested the returned mask has one entry per input row. -/
theorem c8_filter_never_mutates_caller_table (deps : FilterDeps)
    (obj : ObjTable) (sr? pixscale? : Option ℚ) (time? : Option (List ℚ))
    (cat? : Option CatTable) (ccra ccdec : String) (vizier : List String)
    (skybot ned flagged : Bool) (col_id? : Option String)
    (get_candidates verbose : Bool) (out : FilterOut)
    (hwf : TableWF obj)
    (hok : filter_transient_candidates deps obj sr? pixscale? time? cat? ccra ccdec
      vizier skybot ned flagged col_id? get_candidates verbose = Except.ok out) :
    out.callerTable = obj ∧
    out.initMask = List.replicate (tlen obj) true ∧
    (lastMask out.initMask out.stages).length = tlen obj ∧
    (get_candidates = true →
      out.result = Sum.inl (obj.selectMask (lastMask out.initMask out.stages))) ∧
    (obj.extra = none →
      (obj.selectMask (lastMask out.initMask out.stages)).extra = none) ∧
    (get_candidates = false →
      out.result = Sum.inr (lastMask out.initMask out.stages)) := by
  unfold filter_transient_candidates at hok
  rw [mapError_ok_iff] at hok
  obtain ⟨h1, h2, -, h4, h5, h6⟩ := filterBody_ok_spec hwf hok
  exact ⟨h1, h2, h4, h5, fun hx => selectMask_extra_none obj _ hx, h6⟩

/-- C8 witness: a concrete candidates-requested run; the caller table
comes back unchanged and the result is a subset of the original rows. -/
theorem c8_filter_never_mutates_caller_table_witness :
    TableWF fDemoObj ∧ c8Out.callerTable = fDemoObj :=
  ⟨by decide,
    (c8_filter_never_mutates_caller_table fDemoDeps fDemoObj (some (1/3600)) none
      (some [59000]) (some fDemoCat) "RAJ2000" "DEJ2000" ["ps1"] true true true
      none true false c8Out (by decide) rfl).1⟩

/-- C4: `calibrate_photometry` evaluates the colour expression
`cat[cat_col_mag1] - cat[cat_col_mag2]` while building the argument list of
the match call, unconditionally; with the default
`cat_col_mag1 = cat_col_mag2 = None` the call fails with a structural error
before any matching — the result does not depend on the match primitive at
all, so a zero-point-only calibration is unreachable through this entry
point. -/
theorem c4_calibrate_requires_color_columns (f g : CalDeps) (obj : ObjTable)
    (cat : CatTable) (sr? pixscale? : Option ℚ) (order : ℕ) (threshold : ℚ)
    (cmag : String) (cm1 cm2 : Option String) (cra cdec : String)
    (update verbose : Bool)
    (h : cm1 = none ∨ cm2 = none) :
    (∃ msg, calibrate_photometry f obj cat sr? pixscale? order threshold cmag cm1 cm2
      cra cdec update verbose = Except.error (msg, obj)) ∧
    calibrate_photometry f obj cat sr? pixscale? order threshold cmag cm1 cm2
      cra cdec update verbose =
    calibrate_photometry g obj cat sr? pixscale? order threshold cmag cm1 cm2
      cra cdec update verbose := by
  have core : ∃ msg,
      calibrate_photometry f obj cat sr? pixscale? order threshold cmag cm1 cm2
        cra cdec update verbose = Except.error (msg, obj) ∧
      calibrate_photometry g obj cat sr? pixscale? order threshold cmag cm1 cm2
        cra cdec update verbose = Except.error (msg, obj) := by
    cases hra : cat.get cra with
    | error e =>
      refine ⟨e, ?_, ?_⟩ <;>
        simp only [calibrate_photometry, hra, Except.mapError]
    | ok lra =>
      cases hde : cat.get cdec with
      | error e =>
        refine ⟨e, ?_, ?_⟩ <;>
          simp only [calibrate_photometry, hra, hde, Except.mapError]
      | ok lde =>
        cases hmg : cat.get cmag with
        | error e =>
          refine ⟨e, ?_, ?_⟩ <;>
            simp only [calibrate_photometry, hra, hde, hmg, Except.mapError]
        | ok lmg =>
          rcases h with h1 | h2
          · subst h1
            refine ⟨"TypeError: None is not a valid column name", ?_, ?_⟩ <;>
              simp only [calibrate_photometry, hra, hde, hmg, CatTable.getOpt,
                Except.mapError]
          · subst h2
            cases hg1 : cat.getOpt cm1 with
            | error e =>
              refine ⟨e, ?_, ?_⟩ <;>
                simp only [calibrate_photometry, hra, hde, hmg, hg1, Except.mapError]
            | ok l1 =>
              refine ⟨"TypeError: None is not a valid column name", ?_, ?_⟩ <;>
                (simp only [calibrate_photometry, hra, hde, hmg, hg1]
                 simp only [CatTable.getOpt, Except.mapError])
  obtain ⟨msg, hf, hg⟩ := core
  exact ⟨⟨msg, hf⟩, hf.trans hg.symm⟩

/-- C4 witness: a concrete call with both colour columns unset fails
structurally, whatever the match primitive would have returned. -/
theorem c4_calibrate_requires_color_columns_witness :
    ∃ msg, calibrate_photometry ⟨fun _ _ _ _ _ _ _ _ _ _ _ _ _ _ => none⟩ demoObj
      demoCat none none 0 5 ("V") none none ("RAJ2000") "DEJ2000" true false =
      Except.error (msg, demoObj) :=
  (c4_calibrate_requires_color_columns ⟨fun _ _ _ _ _ _ _ _ _ _ _ _ _ _ => none⟩
    ⟨fun _ _ _ _ _ _ _ _ _ _ _ _ _ _ => some ⟨fun _ _ => [], none⟩⟩ demoObj demoCat
    none none 0 5 ("V") none none ("RAJ2000") "DEJ2000" true false (Or.inl rfl)).1

/-- C9: in both `filter_transient_candidates` and `calibrate_photometry`,
an unset matching radius `sr` defaults to half the median of the objects'
`fwhm` values scaled by the pixel scale when one is supplied, and to the
fixed 1 arcsecond (1/3600 degree) otherwise: the call with `sr` unset
equals the call with `sr` set to that value. -/
theorem c9_default_matching_radius_policy (fdeps : FilterDeps) (cdeps : CalDeps)
    (obj : ObjTable) (cat : CatTable) (p : ℚ) (time? : Option (List ℚ))
    (cat? : Option CatTable) (ccra ccdec : String) (vizier : List String)
    (skybot ned flagged : Bool) (col_id? : Option String)
    (get_candidates verbose : Bool) (order : ℕ) (threshold : ℚ) (cmag : String)
    (cm1 cm2 : Option String) (update : Bool) :
    (filter_transient_candidates fdeps obj none (some p) time? cat? ccra ccdec vizier
        skybot ned flagged col_id? get_candidates verbose =
      filter_transient_candidates fdeps obj
        (some (npMedian (List.map (fun f => f * p) obj.fwhm) / 2)) (some p) time? cat?
        ccra ccdec vizier skybot ned flagged col_id? get_candidates verbose) ∧
    (filter_transient_candidates fdeps obj none none time? cat? ccra ccdec vizier
        skybot ned flagged col_id? get_candidates verbose =
      filter_transient_candidates fdeps obj (some (1/3600)) none time? cat? ccra ccdec
        vizier skybot ned flagged col_id? get_candidates verbose) ∧
    (calibrate_photometry cdeps obj cat none (some p) order threshold cmag cm1 cm2
        ccra ccdec update verbose =
      calibrate_photometry cdeps obj cat
        (some (npMedian (List.map (fun f => f * p) obj.fwhm) / 2)) (some p) order
        threshold cmag cm1 cm2 ccra ccdec update verbose) ∧
    (calibrate_photometry cdeps obj cat none none order threshold cmag cm1 cm2
        ccra ccdec update verbose =
      calibrate_photometry cdeps obj cat (some (1/3600)) none order threshold cmag
        cm1 cm2 ccra ccdec update verbose) :=
  ⟨rfl, rfl, rfl, rfl⟩

/-- C10: the flagged-removal stage of `filter_transient_candidates`
reports its count through a bare `print`, not the verbose-gated logger: a
run with `verbose = False` still emits the "unflagged" message.  Concrete
run of the code at the failing input (`verbose = False`, `flagged = True`,
three candidates of which one is flagged). -/
theorem c10_flagged_stage_prints_despite_verbose_off :
    filter_transient_candidates fDemoDeps fDemoObj (some (1/3600)) none none none
      ("RAJ2000") "DEJ2000" [] false false true none true false = Except.ok c10Out ∧
    c10Out.output = ["2 of them are unflagged"] :=
  ⟨rfl, by decide⟩
